import Mathlib

/-!
Verification of the AD10 SRT clipping engine (script.py): trigger fusion
(audio / OCR / motion), debouncing via a shared ball_start gate, clip
window computation, and the watchdog restart loop.

Timestamps and scores are modelled as rationals; per-frame sensor data
(audio trigger flag, recognized OCR text, motion score) are inputs to an
explicit step function over the engine state.
-/

namespace AD10

/-- Frame width in pixels. -/
def WIDTH : Nat := 1920

/-- Frame height in pixels. -/
def HEIGHT : Nat := 1080

/-- Frames per second of the decoded video. -/
def FPS : ℚ := 25

/-- Minimum spacing between OCR attempts, in seconds. -/
def OCR_INTERVAL : ℚ := 0.4

/-- Audio RMS loudness threshold (normalized volume). -/
def AUDIO_THRESH : ℚ := 0.65

/-- Number of consecutive loud 0.1 s chunks required for an audio trigger. -/
def AUDIO_SUSTAIN : Nat := 3

/-- Base motion-score threshold. -/
def SCENE_THRESH : ℚ := 12.0

/-- Seconds of run-up captured before a trigger. -/
def RUNUP_SEC : ℚ := 6.0

/-- Seconds captured after a trigger. -/
def POST_SEC : ℚ := 12.0

/-- Minimum intended ball-clip duration, seconds. -/
def BALL_MIN : ℚ := 8.0

/-- Maximum intended ball-clip duration, seconds. -/
def BALL_MAX : ℚ := 25.0

/-- The OCR keywords, in the order the engine scans them. -/
def OCR_KEYWORDS : List (List Char) :=
  ["4", "6", "OUT", "WICKET", "APPEAL", "REVIEW", "BOWLED", "CAUGHT", "CENTURY"].map
    (fun s => s.toList)

/-- Python `needle in hay` on strings, as lists of characters. -/
def containsSub (needle : List Char) : List Char → Bool
  | [] => needle.isEmpty
  | c :: rest => needle.isPrefixOf (c :: rest) || containsSub needle rest

/-- Whether a keyword is one of the numeric ones ("4" or "6"). -/
def numeric (k : List Char) : Bool := k == ['4'] || k == ['6']

/-- Uppercase a character list, as Python str.upper on ASCII text. -/
def upper (l : List Char) : List Char := l.map Char.toUpper

/-- One keyword test of the OCR loop body: `k in text`, except that a
numeric keyword is skipped (`continue`) unless `" k "` occurs in `" text "`. -/
def matchKeyword (text k : List Char) : Bool :=
  containsSub k text &&
    !(numeric k && !containsSub (' ' :: (k ++ [' '])) (' ' :: (text ++ [' '])))

/-- The first keyword, in OCR_KEYWORDS order, that the loop accepts. -/
def ocrFirstMatch (text : List Char) : Option (List Char) :=
  OCR_KEYWORDS.find? (fun k => matchKeyword text k)

/-- One 0.1 s chunk of AudioMonitor.run: given the sustain counter and the
chunk's normalized volume, return the new counter and whether the trigger
flag was set on this chunk. -/
def audioStep (count : Nat) (vol : ℚ) : Nat × Bool :=
  let c := if vol > AUDIO_THRESH then count + 1 else 0
  if AUDIO_SUSTAIN ≤ c then (0, true) else (c, false)

/-- Fold audioStep over a list of chunk volumes, recording for each chunk
whether the trigger flag was set there. -/
def audioFires (count : Nat) : List ℚ → List Bool
  | [] => []
  | v :: vs =>
    let r := audioStep count v
    r.2 :: audioFires r.1 vs

/-- The externally visible effects of one cut_job call, in order. -/
inductive JobAction where
  | trim (start dur : ℚ)
  | vertical
  | logError
deriving DecidableEq, Repr

/-- cut_job t1 t2: runs the ffmpeg trim with `-ss t1 -t (t2 - t1)`; on exit
status zero invokes make_vertical, otherwise logs the error. `rc` is the
trim step's exit status. -/
def cut_job (t1 t2 : ℚ) (rc : Int) : List JobAction :=
  JobAction.trim t1 (t2 - t1) ::
    (if rc = 0 then [JobAction.vertical] else [JobAction.logError])

/-- cut_ball t1 t2: computes `dur = min (max (t2 - t1) BALL_MIN) BALL_MAX`
and schedules cut_job with arguments `(t1, t2 + dur)`; returns that pair. -/
def cut_ball (t1 t2 : ℚ) : ℚ × ℚ :=
  let dur := min (max (t2 - t1) BALL_MIN) BALL_MAX
  (t1, t2 + dur)

/-- The three trigger sources, in the order the frame loop checks them. -/
inductive Source where
  | audio
  | ocr
  | motion
deriving DecidableEq, Repr

/-- Source-specific debounce gap, in seconds. -/
def gapOf : Source → ℚ
  | Source.audio => 10
  | Source.ocr => 5
  | Source.motion => 8

/-- Engine state carried across frames of one session. -/
structure EngineState where
  frame_id : Nat
  ball_start : ℚ
  last_ocr_time : ℚ
  havePrev : Bool
deriving DecidableEq, Repr

/-- Per-frame sensor inputs: the audio monitor's trigger flag at check
time, the joined OCR text (none if no readable text or the OCR call
raised), and the absdiff motion score against the previous frame. -/
structure FrameInput where
  audioTrig : Bool
  ocrRes : Option (List Char)
  motionScore : ℚ
deriving DecidableEq, Repr

/-- Output of processing one frame: the new state, the cut_ball calls
accepted on this frame (source and trigger timestamp), and the audio
monitor's trigger flag after the frame. -/
structure StepOut where
  state : EngineState
  fired : List (Source × ℚ)
  audioFlagAfter : Bool
deriving DecidableEq, Repr

/-- Timestamp of the frame about to be processed: `(frame_id + 1) / FPS`. -/
def stepT (s : EngineState) : ℚ := ((s.frame_id : ℚ) + 1) / FPS

/-- Section A of the frame loop: the audio trigger check. Returns the
accepted triggers and the (possibly updated) ball_start. -/
def audioBranch (trig : Bool) (t bs : ℚ) : List (Source × ℚ) × ℚ :=
  if trig then
    if t - bs > 10 then ([(Source.audio, t)], t) else ([], bs)
  else ([], bs)

/-- Section B of the frame loop: the OCR check. Returns the accepted
triggers, the new ball_start and the new last_ocr_time. -/
def ocrBranch (reader : Bool) (t lastOcr bs : ℚ) (res : Option (List Char)) :
    List (Source × ℚ) × ℚ × ℚ :=
  if reader then
    if t - lastOcr > OCR_INTERVAL ∧ t - bs > 5 then
      match res with
      | none => ([], bs, t)
      | some txt =>
        match ocrFirstMatch (upper txt) with
        | some _ => ([(Source.ocr, t)], t, t)
        | none => ([], bs, t)
    else ([], bs, lastOcr)
  else ([], bs, lastOcr)

/-- Section C of the frame loop: the motion check. Returns the accepted
triggers and the new ball_start. -/
def motionBranch (havePrev : Bool) (score t bs : ℚ) : List (Source × ℚ) × ℚ :=
  if havePrev then
    if score > SCENE_THRESH ∧ t - bs > 8 then
      if score > 20 then ([(Source.motion, t)], t) else ([], bs)
    else ([], bs)
  else ([], bs)

/-- One iteration of the inner frame loop of run_engine, on a full frame:
frame_id is incremented, then the audio, OCR and motion sections run in
that order against the shared ball_start gate. -/
def engineStep (reader : Bool) (s : EngineState) (inp : FrameInput) : StepOut :=
  let t := stepT s
  let a := audioBranch inp.audioTrig t s.ball_start
  let o := ocrBranch reader t s.last_ocr_time a.2 inp.ocrRes
  let m := motionBranch s.havePrev inp.motionScore t o.2.1
  { state :=
      { frame_id := s.frame_id + 1
        ball_start := m.2
        last_ocr_time := o.2.2
        havePrev := true }
    fired := a.1 ++ o.1 ++ m.1
    audioFlagAfter := if inp.audioTrig then false else inp.audioTrig }

/-- Run the frame loop over a list of frame inputs, collecting every
accepted trigger (source and timestamp) in order. -/
def engineRun (reader : Bool) (s : EngineState) :
    List FrameInput → EngineState × List (Source × ℚ)
  | [] => (s, [])
  | inp :: rest =>
    let o := engineStep reader s inp
    let r := engineRun reader o.state rest
    (r.1, o.fired ++ r.2)

/-- State at the start of a session: frame_id 0, ball_start 0.0,
last_ocr_time 0.0, no previous frame. -/
def initState : EngineState :=
  { frame_id := 0, ball_start := 0, last_ocr_time := 0, havePrev := false }

/-- One read step of the inner loop: either the 10 s idle watchdog fires,
or a video read of `len` bytes arrives together with that frame's sensor
inputs. -/
inductive ReadEvent where
  | timeoutIdle
  | frame (len : Nat) (inp : FrameInput)

/-- The inner loop of one session: breaks on an idle timeout or a short
read (returning `true` for "loop exited, session torn down"), otherwise
processes the frame and continues; a session that exhausts its events
without a break returns `false`. -/
def sessionRun (reader : Bool) (s : EngineState) :
    List ReadEvent → EngineState × Bool
  | [] => (s, false)
  | ReadEvent.timeoutIdle :: _ => (s, true)
  | ReadEvent.frame len inp :: rest =>
    if len ≠ WIDTH * HEIGHT * 3 then (s, true)
    else sessionRun reader (engineStep reader s inp).state rest

/-- The watchdog restart loop: every relaunch starts a fresh session from
initState. -/
def watchdogRun (reader : Bool) : List (List ReadEvent) → List (EngineState × Bool)
  | [] => []
  | evs :: rest => sessionRun reader initState evs :: watchdogRun reader rest

/-- Teardown actions of the finally block, in order: stop the audio
monitor (when present), terminate the ffmpeg process, kill it if the
2 s wait times out, then the fixed 2 s network cooldown. -/
inductive TeardownAction where
  | stopAudio
  | terminateProc
  | killProc
  | cooldown
deriving DecidableEq, Repr

/-- The finally block of run_engine's session loop. -/
def teardown (hasAudio waitTimesOut : Bool) : List TeardownAction :=
  (if hasAudio then [TeardownAction.stopAudio] else []) ++
    [TeardownAction.terminateProc] ++
    (if waitTimesOut then [TeardownAction.killProc] else []) ++
    [TeardownAction.cooldown]

/-- The per-source debounce chain: each accepted trigger's timestamp
exceeds the ball_start in force before it (the previous accepted
timestamp, or the session-initial value) by more than the accepting
source's gap. -/
def okChain : ℚ → List (Source × ℚ) → Prop
  | _, [] => True
  | b, x :: rest => x.2 - b > gapOf x.1 ∧ okChain x.2 rest

/-- C1: at a trigger timestamp t = 10 the handler passes
(t1, t2) = (max 0 (10 - RUNUP_SEC), 10 + POST_SEC) = (4, 22) to cut_ball,
which schedules cut_job with (4, 40); the trim step is then invoked with
start 4 and duration 36, and 36 exceeds BALL_MAX = 25, so the extracted
window is NOT clamped to [BALL_MIN, BALL_MAX]. -/
theorem cut_window_exceeds_max :
    cut_ball (max 0 (10 - RUNUP_SEC)) (10 + POST_SEC) = (4, 40) ∧
    cut_job 4 40 0 = [JobAction.trim 4 36, JobAction.vertical] ∧
    ¬ ((36 : ℚ) ≤ BALL_MAX) := by
  refine ⟨?_, ?_, ?_⟩ <;>
    norm_num [cut_ball, cut_job, RUNUP_SEC, POST_SEC, BALL_MIN, BALL_MAX,
      max_def, min_def]

/-- C3: a single above-threshold chunk never sets the audio trigger; from
any reachable counter (< AUDIO_SUSTAIN) the trigger is set exactly when
the chunk is loud and completes AUDIO_SUSTAIN consecutive loud chunks; a
quiet chunk resets the counter to 0; firing resets the counter to 0; the
counter stays below AUDIO_SUSTAIN; and on five consecutive loud chunks
exactly one trigger is raised, on the third chunk. -/
theorem audio_sustain_trigger :
    (∀ v : ℚ, (audioStep 0 v).2 = false) ∧
    (∀ c : Nat, ∀ v : ℚ, c < AUDIO_SUSTAIN →
      ((audioStep c v).2 = true ↔ v > AUDIO_THRESH ∧ c + 1 = AUDIO_SUSTAIN)) ∧
    (∀ c : Nat, ∀ v : ℚ, ¬ v > AUDIO_THRESH → (audioStep c v).1 = 0) ∧
    (∀ c : Nat, ∀ v : ℚ, (audioStep c v).2 = true → (audioStep c v).1 = 0) ∧
    (∀ c : Nat, ∀ v : ℚ, c < AUDIO_SUSTAIN → (audioStep c v).1 < AUDIO_SUSTAIN) ∧
    audioFires 0 [1, 1, 1, 1, 1] = [false, false, true, false, false] := by
  refine ⟨?_, ?_, ?_, ?_, ?_,
    by norm_num [audioFires, audioStep, AUDIO_THRESH, AUDIO_SUSTAIN]⟩
  · intro v
    simp only [audioStep, AUDIO_SUSTAIN]
    split_ifs <;> simp_all
  · intro c v hc
    simp only [audioStep, AUDIO_SUSTAIN] at *
    by_cases hv : v > AUDIO_THRESH
    · rw [if_pos hv]
      by_cases h3 : 3 ≤ c + 1
      · rw [if_pos h3]
        simp only [true_iff, hv, true_and]
        omega
      · rw [if_neg h3]
        simp [hv]
        omega
    · rw [if_neg hv]
      simp [hv]
  · intro c v hv
    simp only [audioStep]
    rw [if_neg hv]
    simp [AUDIO_SUSTAIN]
  · intro c v hf
    simp only [audioStep, AUDIO_SUSTAIN] at hf ⊢
    by_cases hv : v > AUDIO_THRESH
    · rw [if_pos hv] at hf ⊢
      by_cases h3 : 3 ≤ c + 1
      · rw [if_pos h3]
      · rw [if_neg h3] at hf
        simp at hf
    · rw [if_neg hv] at hf ⊢
      simp at hf ⊢
  · intro c v hc
    simp only [audioStep, AUDIO_SUSTAIN] at *
    by_cases hv : v > AUDIO_THRESH
    · rw [if_pos hv]
      by_cases h3 : 3 ≤ c + 1
      · rw [if_pos h3]
        simp
      · rw [if_neg h3]
        simp only
        omega
    · rw [if_neg hv]
      simp

/-- Witness for audio_sustain_trigger at counter 2 and volume 1. -/
theorem audio_sustain_trigger_witness :
    ((audioStep 2 1).2 = true ↔ (1 : ℚ) > AUDIO_THRESH ∧ 2 + 1 = AUDIO_SUSTAIN) ∧
    (audioStep 1 0).1 = 0 ∧
    (audioStep 2 1).1 = 0 ∧
    (audioStep 2 1).1 < AUDIO_SUSTAIN :=
  ⟨audio_sustain_trigger.2.1 2 1 (by norm_num [AUDIO_SUSTAIN]),
   audio_sustain_trigger.2.2.1 1 0 (by norm_num [AUDIO_THRESH]),
   audio_sustain_trigger.2.2.2.1 2 1
     (by norm_num [audioStep, AUDIO_THRESH, AUDIO_SUSTAIN]),
   audio_sustain_trigger.2.2.2.2.1 2 1 (by norm_num [AUDIO_SUSTAIN])⟩

/-- C4: keyword "4" does not match the texts "14", "41", "45" but matches
"SCORE 4 RUNS"; a non-numeric keyword matches by plain substring; on
"14 OUT" the numeric keyword is skipped and "OUT" wins; on "SCORE 4 RUNS"
the first keyword "4" wins; and any keyword returned by ocrFirstMatch
matched and is one of OCR_KEYWORDS (scanned in order by List.find?). -/
theorem ocr_numeric_whole_word :
    matchKeyword ("14".toList) ("4".toList) = false ∧
    matchKeyword ("41".toList) ("4".toList) = false ∧
    matchKeyword ("45".toList) ("4".toList) = false ∧
    matchKeyword ("SCORE 4 RUNS".toList) ("4".toList) = true ∧
    (∀ text k : List Char, numeric k = false →
      matchKeyword text k = containsSub k text) ∧
    ocrFirstMatch ("14 OUT".toList) = some ("OUT".toList) ∧
    ocrFirstMatch ("SCORE 4 RUNS".toList) = some ("4".toList) ∧
    (∀ text k : List Char, ocrFirstMatch text = some k →
      matchKeyword text k = true ∧ k ∈ OCR_KEYWORDS) := by
  refine ⟨by decide, by decide, by decide, by decide, ?_, by decide, by decide, ?_⟩
  · intro text k hk
    simp [matchKeyword, hk]
  · intro text k hf
    exact ⟨List.find?_some hf, List.mem_of_find?_eq_some hf⟩

/-- Witness for ocr_numeric_whole_word on keyword "OUT". -/
theorem ocr_numeric_whole_word_witness :
    matchKeyword ("14 OUT".toList) ("OUT".toList) =
      containsSub ("OUT".toList) ("14 OUT".toList) ∧
    (matchKeyword ("14 OUT".toList) ("OUT".toList) = true ∧
      ("OUT".toList) ∈ OCR_KEYWORDS) :=
  ⟨ocr_numeric_whole_word.2.2.2.2.1 ("14 OUT".toList) ("OUT".toList) (by decide),
   ocr_numeric_whole_word.2.2.2.2.2.2.2 ("14 OUT".toList) ("OUT".toList) (by decide)⟩

/-- C8: make_vertical runs iff the trim step exits with status zero; on a
non-zero status the job performs exactly the trim attempt and an error
log (no vertical, no retry); the trim step is attempted exactly once
regardless of the status. -/
theorem vertical_iff_trim_success (t1 t2 : ℚ) (rc : Int) :
    (JobAction.vertical ∈ cut_job t1 t2 rc ↔ rc = 0) ∧
    (rc ≠ 0 → cut_job t1 t2 rc = [JobAction.trim t1 (t2 - t1), JobAction.logError]) ∧
    (rc = 0 → cut_job t1 t2 rc = [JobAction.trim t1 (t2 - t1), JobAction.vertical]) ∧
    (cut_job t1 t2 rc).countP
      (fun a => match a with | JobAction.trim _ _ => true | _ => false) = 1 := by
  by_cases h : rc = 0 <;>
    simp [cut_job, h, List.countP_cons, List.countP, List.countP.go]

/-- Witness for vertical_iff_trim_success at (4, 40) with exit status 1. -/
theorem vertical_iff_trim_success_witness :
    cut_job 4 40 1 = [JobAction.trim 4 ((40 : ℚ) - 4), JobAction.logError] :=
  (vertical_iff_trim_success 4 40 1).2.1 (by decide)

lemma audioBranch_false (t bs : ℚ) : audioBranch false t bs = ([], bs) := by
  simp [audioBranch]

lemma audioBranch_fire (t bs : ℚ) (h : t - bs > 10) :
    audioBranch true t bs = ([(Source.audio, t)], t) := by
  simp [audioBranch, h]

lemma audioBranch_no_fire (trig : Bool) (t bs : ℚ) (h : ¬ t - bs > 10) :
    audioBranch trig t bs = ([], bs) := by
  unfold audioBranch
  split_ifs <;> rfl

lemma audioBranch_cases (trig : Bool) (t bs : ℚ) :
    audioBranch trig t bs = ([], bs) ∨
      (audioBranch trig t bs = ([(Source.audio, t)], t) ∧ t - bs > 10) := by
  unfold audioBranch
  split_ifs with h1 h2
  · exact Or.inr ⟨rfl, h2⟩
  · exact Or.inl rfl
  · exact Or.inl rfl

lemma audioBranch_mem (trig : Bool) (t bs : ℚ) (x : Source × ℚ)
    (hx : x ∈ (audioBranch trig t bs).1) : x = (Source.audio, t) := by
  rcases audioBranch_cases trig t bs with h | ⟨h, _⟩ <;>
    rw [h] at hx <;> simpa using hx

lemma ocrBranch_none (reader : Bool) (t lo bs : ℚ) :
    (ocrBranch reader t lo bs none).1 = [] ∧
      (ocrBranch reader t lo bs none).2.1 = bs := by
  unfold ocrBranch
  split_ifs <;> exact ⟨rfl, rfl⟩

lemma ocrBranch_no_fire (reader : Bool) (t lo bs : ℚ) (res : Option (List Char))
    (h : ¬ t - bs > 5) :
    (ocrBranch reader t lo bs res).1 = [] ∧
      (ocrBranch reader t lo bs res).2.1 = bs := by
  unfold ocrBranch
  split_ifs with h1 h2
  · exact absurd h2.2 h
  · exact ⟨rfl, rfl⟩
  · exact ⟨rfl, rfl⟩

lemma ocrBranch_cases (reader : Bool) (t lo bs : ℚ) (res : Option (List Char)) :
    ((ocrBranch reader t lo bs res).1 = [] ∧
      (ocrBranch reader t lo bs res).2.1 = bs) ∨
      (ocrBranch reader t lo bs res = ([(Source.ocr, t)], t, t) ∧ t - bs > 5) := by
  unfold ocrBranch
  split_ifs with h1 h2
  · rcases res with _ | txt
    · exact Or.inl ⟨rfl, rfl⟩
    · cases hm : ocrFirstMatch (upper txt)
      · exact Or.inl ⟨by simp [hm], by simp [hm]⟩
      · exact Or.inr ⟨by simp [hm], h2.2⟩
  · exact Or.inl ⟨rfl, rfl⟩
  · exact Or.inl ⟨rfl, rfl⟩

lemma ocrBranch_mem (reader : Bool) (t lo bs : ℚ) (res : Option (List Char))
    (x : Source × ℚ) (hx : x ∈ (ocrBranch reader t lo bs res).1) :
    x = (Source.ocr, t) := by
  rcases ocrBranch_cases reader t lo bs res with ⟨h, _⟩ | ⟨h, _⟩
  · rw [h] at hx
    simp at hx
  · rw [h] at hx
    simpa using hx

lemma motionBranch_no_fire (hp : Bool) (score t bs : ℚ) (h : ¬ t - bs > 8) :
    motionBranch hp score t bs = ([], bs) := by
  unfold motionBranch
  split_ifs with h1 h2 h3
  · exact absurd h2.2 h
  · rfl
  · rfl
  · rfl

lemma motionBranch_cases (hp : Bool) (score t bs : ℚ) :
    motionBranch hp score t bs = ([], bs) ∨
      (motionBranch hp score t bs = ([(Source.motion, t)], t) ∧ t - bs > 8 ∧
        score > SCENE_THRESH ∧ score > 20 ∧ hp = true) := by
  unfold motionBranch
  split_ifs with h1 h2 h3
  · exact Or.inr ⟨rfl, h2.2, h2.1, h3, h1⟩
  · exact Or.inl rfl
  · exact Or.inl rfl
  · exact Or.inl rfl

lemma motionBranch_mem (hp : Bool) (score t bs : ℚ) (x : Source × ℚ)
    (hx : x ∈ (motionBranch hp score t bs).1) :
    x = (Source.motion, t) ∧ score > 20 ∧ hp = true := by
  rcases motionBranch_cases hp score t bs with h | ⟨h, _, _, h20, hhp⟩
  · rw [h] at hx
    simp at hx
  · rw [h] at hx
    simp at hx
    exact ⟨hx, h20, hhp⟩

lemma motionBranch_fire_iff (hp : Bool) (score t bs : ℚ) :
    (motionBranch hp score t bs).1 = [(Source.motion, t)] ↔
      hp = true ∧ score > SCENE_THRESH ∧ t - bs > 8 ∧ score > 20 := by
  unfold motionBranch
  split_ifs with h1 h2 h3 <;> simp_all

lemma self_gap_false (t c : ℚ) (hc : c > 0) : ¬ t - t > c := by
  simp only [sub_self]
  linarith

/-- Case analysis of one frame: either nothing fires and ball_start is
unchanged, or exactly one source fires at the frame timestamp, ball_start
becomes that timestamp, and the timestamp exceeded the previous
ball_start by more than the firing source's debounce gap. -/
lemma engineStep_main (reader : Bool) (s : EngineState) (inp : FrameInput) :
    ((engineStep reader s inp).fired = [] ∧
      (engineStep reader s inp).state.ball_start = s.ball_start) ∨
    (∃ src : Source, (engineStep reader s inp).fired = [(src, stepT s)] ∧
      (engineStep reader s inp).state.ball_start = stepT s ∧
      stepT s - s.ball_start > gapOf src) := by
  simp only [engineStep]
  rcases audioBranch_cases inp.audioTrig (stepT s) s.ball_start with ha | ⟨ha, hga⟩
  · rw [ha]
    rcases ocrBranch_cases reader (stepT s) s.last_ocr_time s.ball_start inp.ocrRes
      with ⟨ho1, ho2⟩ | ⟨ho, hgo⟩
    · rw [ho1, ho2]
      rcases motionBranch_cases s.havePrev inp.motionScore (stepT s) s.ball_start
        with hm | ⟨hm, hgm, _, _, _⟩
      · rw [hm]
        exact Or.inl ⟨rfl, rfl⟩
      · rw [hm]
        exact Or.inr ⟨Source.motion, rfl, rfl, by simpa [gapOf] using hgm⟩
    · rw [ho]
      rw [motionBranch_no_fire s.havePrev inp.motionScore (stepT s) (stepT s)
        (self_gap_false _ _ (by norm_num))]
      exact Or.inr ⟨Source.ocr, rfl, rfl, by simpa [gapOf] using hgo⟩
  · rw [ha]
    have ho := ocrBranch_no_fire reader (stepT s) s.last_ocr_time (stepT s) inp.ocrRes
      (self_gap_false _ _ (by norm_num))
    rw [ho.1, ho.2]
    rw [motionBranch_no_fire s.havePrev inp.motionScore (stepT s) (stepT s)
      (self_gap_false _ _ (by norm_num))]
    exact Or.inr ⟨Source.audio, rfl, rfl, by simpa [gapOf] using hga⟩

lemma gapOf_ge (src : Source) : (5 : ℚ) ≤ gapOf src := by
  cases src <;> norm_num [gapOf]

/-- Every accepted trigger's timestamp exceeds the ball_start in force at
the start of the run by more than the accepting source's gap. -/
lemma engineRun_okChain (reader : Bool) :
    ∀ (inps : List FrameInput) (s : EngineState),
      okChain s.ball_start (engineRun reader s inps).2
  | [], _ => trivial
  | inp :: rest, s => by
    simp only [engineRun]
    rcases engineStep_main reader s inp with ⟨hf, hb⟩ | ⟨src, hf, hb, hgap⟩
    · rw [hf]
      simp only [List.nil_append]
      have ih := engineRun_okChain reader rest (engineStep reader s inp).state
      rw [hb] at ih
      exact ih
    · rw [hf]
      simp only [List.cons_append, List.nil_append]
      refine ⟨hgap, ?_⟩
      have ih := engineRun_okChain reader rest (engineStep reader s inp).state
      rw [hb] at ih
      exact ih

lemma okChain_all_gt (b : ℚ) :
    ∀ L : List (Source × ℚ), okChain b L → ∀ x ∈ L, x.2 > b + 5
  | [], _, x, hx => absurd hx (List.not_mem_nil x)
  | y :: rest, ⟨h1, h2⟩, x, hx => by
    rcases List.mem_cons.mp hx with rfl | hx'
    · have := gapOf_ge x.1
      linarith
    · have hy := okChain_all_gt y.2 rest h2 x hx'
      have := gapOf_ge y.1
      linarith

lemma okChain_pairwise (b : ℚ) :
    ∀ L : List (Source × ℚ), okChain b L →
      L.Pairwise (fun x y => y.2 - x.2 > 5)
  | [], _ => List.Pairwise.nil
  | y :: rest, ⟨_, h2⟩ => by
    refine List.Pairwise.cons ?_ (okChain_pairwise y.2 rest h2)
    intro x hx
    have := okChain_all_gt y.2 rest h2 x hx
    linarith

/-- C2 (amended): within one session, any two accepted triggers are
separated by more than 5 seconds — the smallest of the three debounce
gaps, which is the OCR gap of 5 s. -/
theorem min_trigger_separation (reader : Bool) (inps : List FrameInput) :
    ((engineRun reader initState inps).2).Pairwise
      (fun x y => y.2 - x.2 > 5) :=
  okChain_pairwise _ _ (engineRun_okChain reader inps initState)

/-- C10: within one session started at initState (ball_start 0.0), each
accepted trigger's timestamp exceeds the previous ball_start by more than
the accepting source's debounce gap (okChain), so the sequence of
ball_start values across accepted triggers is strictly increasing. -/
theorem ball_start_strictly_increasing (reader : Bool) (inps : List FrameInput) :
    okChain initState.ball_start ((engineRun reader initState inps).2) ∧
    initState.ball_start = 0 ∧
    ((engineRun reader initState inps).2).Pairwise (fun x y => x.2 < y.2) := by
  refine ⟨engineRun_okChain reader inps initState, rfl, ?_⟩
  have h := okChain_pairwise _ _ (engineRun_okChain reader inps initState)
  exact h.imp (fun hxy => by linarith)

/-- C6: at most one trigger is accepted per frame; every accepted trigger
carries the current frame timestamp, which immediately becomes ball_start;
and when the audio source (checked first) qualifies, the frame's accepted
triggers are exactly the audio one. -/
theorem one_trigger_per_frame (reader : Bool) (s : EngineState) (inp : FrameInput) :
    (engineStep reader s inp).fired.length ≤ 1 ∧
    (∀ x ∈ (engineStep reader s inp).fired,
      x.2 = stepT s ∧ (engineStep reader s inp).state.ball_start = stepT s) ∧
    (inp.audioTrig = true → stepT s - s.ball_start > 10 →
      (engineStep reader s inp).fired = [(Source.audio, stepT s)]) := by
  refine ⟨?_, ?_, ?_⟩
  · rcases engineStep_main reader s inp with ⟨hf, _⟩ | ⟨src, hf, _, _⟩ <;> simp [hf]
  · intro x hx
    rcases engineStep_main reader s inp with ⟨hf, _⟩ | ⟨src, hf, hb, _⟩
    · rw [hf] at hx
      cases hx
    · rw [hf] at hx
      simp at hx
      rw [hx]
      exact ⟨rfl, hb⟩
  · intro h1 h2
    simp only [engineStep]
    rw [h1, audioBranch_fire _ _ h2]
    have ho := ocrBranch_no_fire reader (stepT s) s.last_ocr_time (stepT s) inp.ocrRes
      (self_gap_false _ _ (by norm_num))
    rw [ho.1, ho.2]
    rw [motionBranch_no_fire s.havePrev inp.motionScore (stepT s) (stepT s)
      (self_gap_false _ _ (by norm_num))]
    rfl

/-- Witness for one_trigger_per_frame: an audio trigger at frame 301
(t = 12.04 s) with ball_start 0 fires the audio source alone. -/
theorem one_trigger_per_frame_witness :
    (engineStep false ⟨300, 0, 0, true⟩ ⟨true, none, 0⟩).fired =
      [(Source.audio, stepT ⟨300, 0, 0, true⟩)] :=
  (one_trigger_per_frame false ⟨300, 0, 0, true⟩ ⟨true, none, 0⟩).2.2 rfl
    (by norm_num [stepT, FPS])

/-- C5: a motion score not above the massive threshold 20 never yields a
motion trigger (even above SCENE_THRESH with the gap elapsed); the first
frame (no previous frame) never yields a motion trigger; and on a frame
with no audio flag and no OCR text, a motion trigger is accepted exactly
when there is a previous frame, the score exceeds SCENE_THRESH and the
massive threshold 20, and more than 8 s have passed since ball_start —
a single frame's score, no accumulation. -/
theorem motion_requires_massive (reader : Bool) (s : EngineState) (inp : FrameInput) :
    (¬ inp.motionScore > 20 →
      ∀ x ∈ (engineStep reader s inp).fired, x.1 ≠ Source.motion) ∧
    (s.havePrev = false →
      ∀ x ∈ (engineStep reader s inp).fired, x.1 ≠ Source.motion) ∧
    (inp.audioTrig = false → inp.ocrRes = none →
      ((engineStep reader s inp).fired = [(Source.motion, stepT s)] ↔
        s.havePrev = true ∧ inp.motionScore > SCENE_THRESH ∧
          stepT s - s.ball_start > 8 ∧ inp.motionScore > 20)) := by
  refine ⟨?_, ?_, ?_⟩
  · intro h20 x hx
    simp only [engineStep] at hx
    rcases List.mem_append.mp hx with hx' | hx'
    · rcases List.mem_append.mp hx' with hx'' | hx''
      · rw [audioBranch_mem _ _ _ _ hx'']
        simp
      · rw [ocrBranch_mem _ _ _ _ _ _ hx'']
        simp
    · exact absurd (motionBranch_mem _ _ _ _ _ hx').2.1 h20
  · intro hhp x hx
    simp only [engineStep] at hx
    rcases List.mem_append.mp hx with hx' | hx'
    · rcases List.mem_append.mp hx' with hx'' | hx''
      · rw [audioBranch_mem _ _ _ _ hx'']
        simp
      · rw [ocrBranch_mem _ _ _ _ _ _ hx'']
        simp
    · have := (motionBranch_mem _ _ _ _ _ hx').2.2
      rw [hhp] at this
      cases this
  · intro ha ho
    simp only [engineStep, ha, ho]
    rw [audioBranch_false]
    have hn := ocrBranch_none reader (stepT s) s.last_ocr_time s.ball_start
    rw [hn.1, hn.2]
    simp only [List.nil_append]
    exact motionBranch_fire_iff s.havePrev inp.motionScore (stepT s) s.ball_start

/-- Witness for motion_requires_massive: a score of 15 (above SCENE_THRESH,
not above 20) fires nothing at frame 301, and a score of 21 fires the
motion trigger there. -/
theorem motion_requires_massive_witness :
    (∀ x ∈ (engineStep false ⟨300, 0, 0, true⟩ ⟨false, none, 15⟩).fired,
      x.1 ≠ Source.motion) ∧
    ((engineStep false ⟨300, 0, 0, true⟩ ⟨false, none, 21⟩).fired =
        [(Source.motion, stepT ⟨300, 0, 0, true⟩)] ↔
      true = true ∧ (21 : ℚ) > SCENE_THRESH ∧
        stepT ⟨300, 0, 0, true⟩ - 0 > 8 ∧ (21 : ℚ) > 20) :=
  ⟨(motion_requires_massive false ⟨300, 0, 0, true⟩ ⟨false, none, 15⟩).1
      (by norm_num),
   (motion_requires_massive false ⟨300, 0, 0, true⟩ ⟨false, none, 21⟩).2.2 rfl rfl⟩

/-- C7: when the audio monitor's flag is set at the start of a frame, it
is false again after that frame whether or not the trigger was accepted;
and if the 10 s debounce had not elapsed, no audio trigger is accepted on
that frame — the flagged event is dropped, not queued. -/
theorem audio_flag_always_cleared (reader : Bool) (s : EngineState)
    (inp : FrameInput) (h : inp.audioTrig = true) :
    (engineStep reader s inp).audioFlagAfter = false ∧
    (¬ stepT s - s.ball_start > 10 →
      ∀ x ∈ (engineStep reader s inp).fired, x.1 ≠ Source.audio) := by
  constructor
  · simp [engineStep, h]
  · intro hgap x hx
    simp only [engineStep] at hx
    rw [audioBranch_no_fire _ _ _ hgap] at hx
    simp only [List.nil_append] at hx
    rcases List.mem_append.mp hx with hx' | hx'
    · rw [ocrBranch_mem _ _ _ _ _ _ hx']
      simp
    · rw [(motionBranch_mem _ _ _ _ _ hx').1]
      simp

/-- Witness for audio_flag_always_cleared: an audio flag on the very first
frame (t = 0.04 s, inside the cool-down since ball_start = 0) is cleared
and fires nothing. -/
theorem audio_flag_always_cleared_witness :
    (engineStep false initState ⟨true, none, 0⟩).audioFlagAfter = false ∧
    (∀ x ∈ (engineStep false initState ⟨true, none, 0⟩).fired,
      x.1 ≠ Source.audio) :=
  ⟨(audio_flag_always_cleared false initState ⟨true, none, 0⟩ rfl).1,
   (audio_flag_always_cleared false initState ⟨true, none, 0⟩ rfl).2
     (by norm_num [stepT, initState, FPS])⟩

/-- C9: a short video read or an idle timeout makes the session loop exit
at once (no further frames of that session are processed and the state
stops changing); teardown always terminates the transport process and
sleeps the cooldown, stops the audio monitor iff one was started, kills
the process iff the 2 s wait timed out; and every relaunch of the
watchdog loop starts from initState, whose frame_id is 0 and ball_start
is 0 (no partial state survives). -/
theorem watchdog_restart_resets (reader : Bool) (s : EngineState) (len : Nat)
    (inp : FrameInput) (rest : List ReadEvent) (hasAudio waitTimesOut : Bool)
    (evs : List ReadEvent) (sessions : List (List ReadEvent))
    (h : len ≠ WIDTH * HEIGHT * 3) :
    sessionRun reader s (ReadEvent.frame len inp :: rest) = (s, true) ∧
    sessionRun reader s (ReadEvent.timeoutIdle :: rest) = (s, true) ∧
    TeardownAction.terminateProc ∈ teardown hasAudio waitTimesOut ∧
    TeardownAction.cooldown ∈ teardown hasAudio waitTimesOut ∧
    (TeardownAction.stopAudio ∈ teardown hasAudio waitTimesOut ↔ hasAudio = true) ∧
    (TeardownAction.killProc ∈ teardown hasAudio waitTimesOut ↔ waitTimesOut = true) ∧
    watchdogRun reader (evs :: sessions) =
      sessionRun reader initState evs :: watchdogRun reader sessions ∧
    initState.frame_id = 0 ∧ initState.ball_start = 0 ∧
    initState.last_ocr_time = 0 ∧ initState.havePrev = false := by
  refine ⟨by simp [sessionRun, h], rfl, ?_, ?_, ?_, ?_, rfl, rfl, rfl, rfl, rfl⟩ <;>
    cases hasAudio <;> cases waitTimesOut <;> simp [teardown]

/-- Witness for watchdog_restart_resets: a 0-byte read tears the session
down immediately. -/
theorem watchdog_restart_resets_witness :
    sessionRun false initState
      (ReadEvent.frame 0 ⟨false, none, 0⟩ :: []) = (initState, true) :=
  (watchdog_restart_resets false initState 0 ⟨false, none, 0⟩ [] false false [] []
    (by decide)).1

/-- A quiet frame: no audio flag, no OCR text, zero motion score. -/
def noIn : FrameInput := ⟨false, none, 0⟩

/-- A frame whose OCR pass reads the text "OUT". -/
def ocrOut : FrameInput := ⟨false, some ("OUT".toList), 0⟩

/-- 252 frames: OCR reads "OUT" at frames 126 (t = 5.04 s) and 252
(t = 10.08 s), every other frame is quiet. -/
def cexInputs : List FrameInput :=
  List.replicate 125 noIn ++ [ocrOut] ++ (List.replicate 125 noIn ++ [ocrOut])

lemma ocrOut_firstMatch :
    ocrFirstMatch (upper ['O', 'U', 'T']) = some ['O', 'U', 'T'] := by decide

lemma ocrBranch_gate_closed (reader : Bool) (t lo bs : ℚ)
    (res : Option (List Char)) (h : ¬ t - bs > 5) :
    ocrBranch reader t lo bs res = ([], bs, lo) := by
  unfold ocrBranch
  split_ifs with h1 h2
  · exact absurd h2.2 h
  · rfl
  · rfl

lemma motionBranch_not_scene (hp : Bool) (score t bs : ℚ)
    (h : ¬ score > SCENE_THRESH) : motionBranch hp score t bs = ([], bs) := by
  unfold motionBranch
  split_ifs with h1 h2 h3
  · exact absurd h2.1 h
  · rfl
  · rfl
  · rfl

lemma engineRun_append (reader : Bool) (l1 l2 : List FrameInput)
    (s : EngineState) :
    engineRun reader s (l1 ++ l2) =
      ((engineRun reader (engineRun reader s l1).1 l2).1,
        (engineRun reader s l1).2 ++
          (engineRun reader (engineRun reader s l1).1 l2).2) := by
  induction l1 generalizing s with
  | nil => simp [engineRun]
  | cons inp rest ih =>
    simp [engineRun, ih, List.append_assoc]

/-- A quiet frame fires nothing and only advances frame_id (and marks a
previous frame as available). -/
lemma quietStep (f : Nat) (b : ℚ) (p : Bool)
    (hgate : ¬ stepT ⟨f, b, b, p⟩ - b > 5) :
    engineStep true ⟨f, b, b, p⟩ noIn = ⟨⟨f + 1, b, b, true⟩, [], false⟩ := by
  simp [engineStep, noIn, audioBranch_false,
    ocrBranch_gate_closed true (stepT ⟨f, b, b, p⟩) b b none hgate,
    motionBranch_not_scene p 0 (stepT ⟨f, b, b, p⟩) b
      (by norm_num [SCENE_THRESH])]

lemma quiet_gate (f N : Nat) (b : ℚ) (p : Bool) (hbN : b = (N : ℚ) / 25)
    (hf : f + 1 ≤ N + 125) : ¬ stepT ⟨f, b, b, p⟩ - b > 5 := by
  have ht : stepT ⟨f, b, b, p⟩ = ((f : ℚ) + 1) / 25 := rfl
  rw [ht, hbN, not_lt, div_sub_div_same, div_le_iff (by norm_num : (0 : ℚ) < 25)]
  have hc : (f : ℚ) + 1 ≤ (N : ℚ) + 125 := by exact_mod_cast hf
  linarith

/-- A run of quiet frames that stays inside the OCR debounce window fires
nothing and leaves ball_start and last_ocr_time untouched. -/
lemma quietRun (b : ℚ) (N : Nat) (hbN : b = (N : ℚ) / 25) :
    ∀ (k f : Nat) (p : Bool), f + k ≤ N + 125 →
      engineRun true ⟨f, b, b, p⟩ (List.replicate k noIn) =
        (⟨f + k, b, b, if k = 0 then p else true⟩, [])
  | 0, f, p, hk => by
    simp [engineRun, List.replicate]
  | k + 1, f, p, hk => by
    simp only [List.replicate, engineRun,
      quietStep f b p (quiet_gate f N b p hbN (by omega))]
    rw [quietRun b N hbN k (f + 1) true (by omega)]
    have harith : f + 1 + k = f + (k + 1) := by omega
    simp [harith]

lemma fireStep126 :
    engineStep true ⟨125, 0, 0, true⟩ ocrOut =
      ⟨⟨126, 126 / 25, 126 / 25, true⟩, [(Source.ocr, 126 / 25)], false⟩ := by
  norm_num [engineStep, ocrOut, audioBranch, ocrBranch, motionBranch, stepT,
    FPS, OCR_INTERVAL, SCENE_THRESH, ocrOut_firstMatch]

lemma fireStep252 :
    engineStep true ⟨251, 126 / 25, 126 / 25, true⟩ ocrOut =
      ⟨⟨252, 252 / 25, 252 / 25, true⟩, [(Source.ocr, 252 / 25)], false⟩ := by
  norm_num [engineStep, ocrOut, audioBranch, ocrBranch, motionBranch, stepT,
    FPS, OCR_INTERVAL, SCENE_THRESH, ocrOut_firstMatch]

/-- C2 as stated is false: running one session over cexInputs accepts two
OCR triggers at t = 126/25 = 5.04 s and t = 252/25 = 10.08 s, only
5.04 s apart, which does not exceed 8 s. -/
theorem eight_second_separation_refuted :
    ((engineRun true initState cexInputs).2).map Prod.snd =
      [126 / 25, 252 / 25] ∧
    ¬ ((252 : ℚ) / 25 - 126 / 25 > 8) := by
  constructor
  · have h1 : engineRun true initState (List.replicate 125 noIn) =
        (⟨125, 0, 0, true⟩, []) := by
      have h := quietRun 0 0 (by norm_num) 125 0 false (by norm_num)
      simpa [initState] using h
    have h2 : engineRun true ⟨125, 0, 0, true⟩ [ocrOut] =
        (⟨126, 126 / 25, 126 / 25, true⟩, [(Source.ocr, 126 / 25)]) := by
      simp [engineRun, fireStep126]
    have h3 : engineRun true ⟨126, 126 / 25, 126 / 25, true⟩
        (List.replicate 125 noIn) = (⟨251, 126 / 25, 126 / 25, true⟩, []) := by
      have h := quietRun (126 / 25) 126 (by norm_num) 125 126 true (by norm_num)
      simpa using h
    have h4 : engineRun true ⟨251, 126 / 25, 126 / 25, true⟩ [ocrOut] =
        (⟨252, 252 / 25, 252 / 25, true⟩, [(Source.ocr, 252 / 25)]) := by
      simp [engineRun, fireStep252]
    have hA1 : engineRun true initState
        (List.replicate 125 noIn ++ [ocrOut]) =
        (⟨126, 126 / 25, 126 / 25, true⟩, [(Source.ocr, 126 / 25)]) := by
      rw [engineRun_append]
      simp only [h1, h2]
      simp
    have hA2 : engineRun true ⟨126, 126 / 25, 126 / 25, true⟩
        (List.replicate 125 noIn ++ [ocrOut]) =
        (⟨252, 252 / 25, 252 / 25, true⟩, [(Source.ocr, 252 / 25)]) := by
      rw [engineRun_append]
      simp only [h3, h4]
      simp
    simp only [cexInputs]
    rw [engineRun_append true (List.replicate 125 noIn ++ [ocrOut]) _ initState]
    simp only [hA1, hA2]
    simp
  · norm_num

end AD10
